import Mathlib

/-!
Verification of the feedback-aggregation and consensus-scoring pipeline of the
Feedback-System repository (`consensus/summary.py`, `consensus/summary_helpers.py`,
`consensus/types.py`).

Embedding conventions:
* Python floats are modelled as exact rationals (`ℚ`); the constants appearing in
  the source (0.5, 0.8, 1.4, ...) are decimal-exact.
* A pandas DataFrame is modelled as a list of rows together with its column list;
  helper functions that read a fixed set of columns are modelled as functions on
  lists of records carrying exactly those columns.
* Python `round` (used via `int(round(x))`) rounds half to even; `pythonRound`
  reproduces that on `ℚ`.
* Python `max(iterable, key=...)` returns the first element attaining the maximum;
  `firstArgmax` reproduces that.
-/

namespace FeedbackSystem

/-- Sentiment classification (`consensus/types.py`, class Sentiment). -/
inductive Sentiment
  | POSITIVE
  | NEUTRAL
  | NEGATIVE
deriving DecidableEq, BEq, Repr

/-- Opposition stance (`consensus/types.py`, class IsAgainst): values YES, NO, MIXED. -/
inductive IsAgainst
  | YES
  | NO
  | MIXED
deriving DecidableEq, BEq, Repr

/-- Type of evidence supporting the opinion (`consensus/types.py`, class EvidenceType). -/
inductive EvidenceType
  | DATA
  | BENCHMARK
  | CITATION
  | EXPERT_OPINION
  | ANECDOTE
  | ASSUMPTION
deriving DecidableEq, BEq, Repr

/-- Plutchik's 8 basic emotions (`consensus/types.py`, class Emotion). -/
inductive Emotion
  | ANTICIPATION
  | JOY
  | TRUST
  | SURPRISE
  | ANGER
  | FEAR
  | SADNESS
  | DISGUST
deriving DecidableEq, BEq, Repr

/-- Discussion/Event category types (`consensus/types.py`, class Category). -/
inductive Category
  | BINARY_PROPOSAL
  | PRIORITIZATION_RANKING
  | BRAINSTORMING_IDEATION
  | FEEDBACK_RETROSPECTIVE
  | FORECASTING_PLANNING
deriving DecidableEq, BEq, Repr

/-- Category to (option column name, allowed option values), from
`CATEGORY_FIELD_OPTIONS` in `consensus/summary_helpers.py`; the value lists are the
enum value strings in declaration order. -/
def CATEGORY_FIELD_OPTIONS : Category → String × List String
  | .BINARY_PROPOSAL => ("is_agreeing", ["YES", "NO", "MAYBE"])
  | .PRIORITIZATION_RANKING => ("priority_class", ["MUST", "SHOULD", "COULD", "WONT"])
  | .BRAINSTORMING_IDEATION =>
      ("actionability", ["QUICK_WIN", "NEEDS_RESEARCH", "BIG_BET", "NOT_USEFUL"])
  | .FEEDBACK_RETROSPECTIVE => ("impact_direction", ["HELPED", "NEUTRAL", "HURT"])
  | .FORECASTING_PLANNING => ("delivery_status", ["AHEAD", "ON_TRACK", "AT_RISK", "BLOCKED"])

/-- Python `round` on an exact rational: round half to even, as used by
`int(round(x))` in `consensus_score_for_group` / `consensus_for_group`. -/
def pythonRound (x : ℚ) : ℤ :=
  let f : ℤ := x.floor
  let r : ℚ := x - (f : ℚ)
  if r < 1 / 2 then f
  else if 1 / 2 < r then f + 1
  else if f % 2 = 0 then f else f + 1

/-- Python `round(x, n)` for positive `n`, half to even at `n` decimal digits
(used for the stored `mismatch_share` in `detect_dissent`). -/
def pythonRoundTo (n : ℕ) (x : ℚ) : ℚ :=
  (pythonRound (x * 10 ^ n) : ℚ) / 10 ^ n

/-! ## Weight model (`consensus/summary_helpers.py`, lines 43-67) -/

/-- `_confidence_factor(confidency) = min(1.4, max(0.0, 0.6 + 0.8 * confidency))`. -/
def confidence_factor (confidency : ℚ) : ℚ :=
  min (7 / 5) (max 0 (3 / 5 + (4 / 5) * confidency))

/-- `_relevancy_factor(relevancy) = 0.5 + 0.5 * max(0.0, min(1.0, relevancy))`.
Note: the source clamps `relevancy` itself into [0, 1]; it does not divide by 100. -/
def relevancy_factor (relevancy : ℚ) : ℚ :=
  1 / 2 + (1 / 2) * max 0 (min 1 relevancy)

/-- `_evidence_type_factor`: the `_EVIDENCE_WEIGHTS` lookup with default 0.9 for a
value absent from the table (`.get(evidence_type, 0.9)`). -/
def evidence_type_factor : Option EvidenceType → ℚ
  | some .DATA => 7 / 5
  | some .BENCHMARK => 5 / 4
  | some .CITATION => 23 / 20
  | some .EXPERT_OPINION => 21 / 20
  | some .ANECDOTE => 19 / 20
  | some .ASSUMPTION => 17 / 20
  | none => 9 / 10

/-- `_is_critical_opinion_factor(b) = 1.1 if b else 0.9`. -/
def is_critical_opinion_factor (is_critical_opinion : Bool) : ℚ :=
  if is_critical_opinion then 11 / 10 else 9 / 10

/-- `compute_weight_row(row)`: product of the four factors, clamped into [0.2, 2.0].
The row fields read by the source (`relevancy`, `confidence`, `evidence_type`,
`is_critical_opinion`) are passed explicitly. -/
def compute_weight_row (relevancy confidence : ℚ) (evidence_type : Option EvidenceType)
    (is_critical_opinion : Bool) : ℚ :=
  max (1 / 5) (min 2
    (relevancy_factor relevancy * confidence_factor confidence *
      evidence_type_factor evidence_type * is_critical_opinion_factor is_critical_opinion))

/-- Claim C2's weight formula, stated for comparison with the source: the claimed
relevancy factor is `0.5 + 0.5 * clamp(relevancy / 100, 0, 1)`, i.e. relevancy is
divided by 100 before clamping; the other three factors are as in the source. -/
def compute_weight_row_per_claim (relevancy confidence : ℚ)
    (evidence_type : Option EvidenceType) (is_critical_opinion : Bool) : ℚ :=
  max (1 / 5) (min 2
    ((1 / 2 + (1 / 2) * max 0 (min 1 (relevancy / 100))) * confidence_factor confidence *
      evidence_type_factor evidence_type * is_critical_opinion_factor is_critical_opinion))

/-! ## Monotonicity lemmas for the weight model -/

lemma relevancy_factor_mono {a b : ℚ} (h : a ≤ b) :
    relevancy_factor a ≤ relevancy_factor b := by
  unfold relevancy_factor
  have hm : max 0 (min 1 a) ≤ max 0 (min 1 b) :=
    max_le_max le_rfl (min_le_min le_rfl h)
  nlinarith

lemma confidence_factor_mono {a b : ℚ} (h : a ≤ b) :
    confidence_factor a ≤ confidence_factor b := by
  unfold confidence_factor
  refine min_le_min le_rfl (max_le_max le_rfl ?_)
  nlinarith

lemma relevancy_factor_nonneg (a : ℚ) : 0 ≤ relevancy_factor a := by
  unfold relevancy_factor
  have : (0 : ℚ) ≤ max 0 (min 1 a) := le_max_left _ _
  nlinarith

lemma confidence_factor_nonneg (a : ℚ) : 0 ≤ confidence_factor a := by
  unfold confidence_factor
  refine le_min (by norm_num) (le_max_left _ _)

lemma evidence_type_factor_nonneg (e : Option EvidenceType) : 0 ≤ evidence_type_factor e := by
  cases e with
  | none => norm_num [evidence_type_factor]
  | some v => cases v <;> norm_num [evidence_type_factor]

lemma is_critical_opinion_factor_nonneg (b : Bool) : 0 ≤ is_critical_opinion_factor b := by
  cases b <;> norm_num [is_critical_opinion_factor]

/-- C2: the claim states that the weight is the product of the four factors with
`relevancy_factor = 0.5 + 0.5 * clamp(relevancy / 100, 0, 1)` (relevancy divided by
100 before clamping).  The source clamps the raw 0-100 relevancy value directly
into [0, 1].  At the classifier-produced input relevancy = 50, confidence = 0.5,
evidence ANECDOTE, not critical, the source weight is 0.855 while the claimed
formula gives 0.64125; the two disagree. -/
theorem compute_weight_row_relevancy_scale_bug :
    compute_weight_row 50 (1 / 2) (some .ANECDOTE) false = 171 / 200
    ∧ compute_weight_row_per_claim 50 (1 / 2) (some .ANECDOTE) false = 513 / 800
    ∧ compute_weight_row 50 (1 / 2) (some .ANECDOTE) false ≠
        compute_weight_row_per_claim 50 (1 / 2) (some .ANECDOTE) false := by
  refine ⟨?_, ?_, ?_⟩ <;>
    norm_num [compute_weight_row, compute_weight_row_per_claim, relevancy_factor,
      confidence_factor, evidence_type_factor, is_critical_opinion_factor, min_def, max_def]

/-- C9: the weight is monotone in relevancy and in confidence, all other inputs
held fixed. -/
theorem compute_weight_row_monotone :
    (∀ r1 r2 c : ℚ, ∀ e : Option EvidenceType, ∀ k : Bool, r1 ≤ r2 →
        compute_weight_row r1 c e k ≤ compute_weight_row r2 c e k)
    ∧ (∀ r c1 c2 : ℚ, ∀ e : Option EvidenceType, ∀ k : Bool, c1 ≤ c2 →
        compute_weight_row r c1 e k ≤ compute_weight_row r c2 e k) := by
  constructor
  · intro r1 r2 c e k h
    unfold compute_weight_row
    refine max_le_max le_rfl (min_le_min le_rfl ?_)
    have h1 := relevancy_factor_mono h
    have h2 := mul_le_mul_of_nonneg_right h1 (confidence_factor_nonneg c)
    have h3 := mul_le_mul_of_nonneg_right h2 (evidence_type_factor_nonneg e)
    exact mul_le_mul_of_nonneg_right h3 (is_critical_opinion_factor_nonneg k)
  · intro r c1 c2 e k h
    unfold compute_weight_row
    refine max_le_max le_rfl (min_le_min le_rfl ?_)
    have h1 := confidence_factor_mono h
    have h2 := mul_le_mul_of_nonneg_left h1 (relevancy_factor_nonneg r)
    have h3 := mul_le_mul_of_nonneg_right h2 (evidence_type_factor_nonneg e)
    exact mul_le_mul_of_nonneg_right h3 (is_critical_opinion_factor_nonneg k)

/-- Witness for C9 at concrete inputs. -/
theorem compute_weight_row_monotone_witness :
    compute_weight_row 0 (1 / 2) (some .DATA) true ≤
      compute_weight_row 100 (1 / 2) (some .DATA) true
    ∧ compute_weight_row 50 0 (some .DATA) true ≤ compute_weight_row 50 1 (some .DATA) true :=
  ⟨compute_weight_row_monotone.1 0 100 (1 / 2) (some .DATA) true (by norm_num),
   compute_weight_row_monotone.2 50 0 1 (some .DATA) true (by norm_num)⟩

/-! ## Data model and Step A filter (`consensus/summary.py`, lines 133-162) -/

/-- One classified feedback item, as one row of the DataFrame built by
`prepare_dataframe`: the `id` plus the dumped `FeedbackRetrospective` dimensions
(`consensus/types.py`, BaseDimensions + impact_direction).  `relevancy` is an
integer in [0, 100] (`Field(..., ge=0, le=100)`), modelled as `ℕ`; the
category-specific option value is kept as its value string. -/
structure Item where
  id : ℤ
  theme : String
  sentiment : Sentiment
  emotion : Option Emotion
  is_critical_opinion : Bool
  risk_flag : Bool
  confidence : ℚ
  relevancy : ℕ
  is_against : IsAgainst
  evidence_type : EvidenceType
  text : String
  impact_direction : String
deriving DecidableEq, Repr

/-- A pandas DataFrame, reduced to what the filter stage inspects: its column list
and its rows. -/
structure DFrame where
  columns : List String
  rows : List Item
deriving DecidableEq, Repr

/-- Column names of the DataFrame built from `{"id": ..., **dimensions}` for the
FEEDBACK_RETROSPECTIVE category, in pydantic field order. -/
def dimension_columns : List String :=
  ["id", "theme", "sentiment", "emotion", "is_critical_opinion", "risk_flag",
   "confidence", "relevancy", "is_against", "evidence_type", "text", "impact_direction"]

/-- `prepare_dataframe`: `pd.DataFrame` over a generator of row dicts.  With at
least one row the columns are the dict keys; with zero rows pandas produces a
DataFrame with no columns at all. -/
def prepare_dataframe (items : List Item) : DFrame :=
  { columns := if items.isEmpty then [] else dimension_columns
    rows := items }

/-- `step_a_filter`: raises `ValueError` when a required column is missing,
otherwise keeps rows with `risk_flag` false and `relevancy >= float(min_relevancy)`
(the row's integer relevancy is compared as a float). -/
def step_a_filter (df : DFrame) (min_relevancy : ℚ) : Except String DFrame :=
  if "risk_flag" ∈ df.columns ∧ "relevancy" ∈ df.columns then
    Except.ok
      { columns := df.columns
        rows := df.rows.filter fun r =>
          !r.risk_flag && decide (min_relevancy ≤ (r.relevancy : ℚ)) }
  else
    Except.error "Missing required columns for Step A"

/-- C5 counterexample: on the empty input the DataFrame has no columns, so Step A
raises its missing-column ValueError instead of returning a zero-valued result. -/
theorem empty_input_counterexample :
    step_a_filter (prepare_dataframe []) (6 / 10) =
      Except.error "Missing required columns for Step A" := by
  rfl

/-- C5 (amended): zero classified items give a DataFrame with no columns, and the
aggregation pipeline's Step A then fails its required-column validation; no
zero-valued result is returned. -/
theorem empty_input_filter_raises :
    (prepare_dataframe []).columns = []
    ∧ ∀ result : DFrame,
        step_a_filter (prepare_dataframe []) (6 / 10) ≠ Except.ok result := by
  refine ⟨rfl, fun result h => ?_⟩
  rw [empty_input_counterexample] at h
  exact Except.noConfusion h

/-- C10: on any non-empty input, Step A with the default `min_relevancy = 0.6`
keeps exactly the rows that are not risk-flagged and have integer relevancy at
least 1 (equivalently, relevancy nonzero), since `relevancy >= 0.6` on a
0-100 integer holds iff `relevancy >= 1`. -/
theorem step_a_filter_spec (items : List Item) (h : items ≠ []) :
    step_a_filter (prepare_dataframe items) (6 / 10) =
      Except.ok
        { columns := dimension_columns
          rows := items.filter fun r => !r.risk_flag && decide (1 ≤ r.relevancy) } := by
  have hcols : (prepare_dataframe items).columns = dimension_columns := by
    simp [prepare_dataframe, List.isEmpty_iff, h]
  unfold step_a_filter
  rw [hcols]
  rw [if_pos (by constructor <;> decide)]
  have hrows : (prepare_dataframe items).rows = items := rfl
  rw [hrows]
  have hfilter :
      (items.filter fun r => !r.risk_flag && decide ((6 : ℚ) / 10 ≤ (r.relevancy : ℚ)))
        = items.filter fun r => !r.risk_flag && decide (1 ≤ r.relevancy) := by
    apply List.filter_congr
    intro r _
    have : ((6 : ℚ) / 10 ≤ (r.relevancy : ℚ)) ↔ 1 ≤ r.relevancy := by
      cases hr : r.relevancy with
      | zero => norm_num
      | succ n =>
          constructor
          · intro _; omega
          · intro _
            have h1 : (1 : ℚ) ≤ ((n + 1 : ℕ) : ℚ) := by exact_mod_cast Nat.one_le_iff_ne_zero.mpr (Nat.succ_ne_zero n)
            linarith
    simp [this]
  rw [hfilter]

/-- A sample classified item used in witnesses. -/
def sample_item : Item :=
  { id := 1
    theme := "Audio Quality"
    sentiment := .NEGATIVE
    emotion := some .ANGER
    is_critical_opinion := true
    risk_flag := false
    confidence := 7 / 10
    relevancy := 80
    is_against := .YES
    evidence_type := .ANECDOTE
    text := "audio kept cutting out"
    impact_direction := "HURT" }

/-- Witness for C10 on a concrete one-item input. -/
theorem step_a_filter_spec_witness :
    step_a_filter (prepare_dataframe [sample_item]) (6 / 10) =
      Except.ok
        { columns := dimension_columns
          rows := [sample_item].filter fun r => !r.risk_flag && decide (1 ≤ r.relevancy) } :=
  step_a_filter_spec [sample_item] (List.cons_ne_nil _ _)

/-! ## Stable sorting by a rational key

Models the stable ascending sorts underlying the pipeline: numpy argsort is an
insertion sort (hence stable) on the small arrays these dataframes produce, and
Python `sorted` is stable.  A descending pandas `sort_values` reverses the stable
ascending order (pandas `nargsort` computes the ascending indexer and reverses it
when `ascending=False`). -/

def insertAscBy {α : Type} (key : α → ℚ) (x : α) : List α → List α
  | [] => [x]
  | y :: ys => if key y < key x then y :: insertAscBy key x ys else x :: y :: ys

def sortAscBy {α : Type} (key : α → ℚ) : List α → List α
  | [] => []
  | x :: xs => insertAscBy key x (sortAscBy key xs)

lemma insertAscBy_perm {α : Type} (key : α → ℚ) (x : α) (l : List α) :
    List.Perm (insertAscBy key x l) (x :: l) := by
  induction l with
  | nil => exact List.Perm.refl _
  | cons y ys ih =>
      unfold insertAscBy
      by_cases h : key y < key x
      · rw [if_pos h]
        exact (ih.cons y).trans (List.Perm.swap x y ys)
      · rw [if_neg h]

lemma sortAscBy_perm {α : Type} (key : α → ℚ) (l : List α) :
    List.Perm (sortAscBy key l) l := by
  induction l with
  | nil => exact List.Perm.refl _
  | cons x xs ih =>
      unfold sortAscBy
      exact (insertAscBy_perm key x (sortAscBy key xs)).trans (ih.cons x)

/-- Stability: inserting `x` into a list sorted by `key` (with the secondary
relation `S` on key-ties) keeps it sorted, provided `x` relates by `S` to every
element it may tie with. -/
lemma insertAscBy_pairwise {α : Type} (key : α → ℚ) (S : α → α → Prop) (x : α)
    (l : List α)
    (hl : l.Pairwise fun a b => key a < key b ∨ (key a = key b ∧ S a b))
    (hx : ∀ y ∈ l, S x y) :
    (insertAscBy key x l).Pairwise fun a b => key a < key b ∨ (key a = key b ∧ S a b) := by
  induction l with
  | nil => simp [insertAscBy]
  | cons y ys ih =>
      rw [List.pairwise_cons] at hl
      obtain ⟨hy, hys⟩ := hl
      unfold insertAscBy
      by_cases h : key y < key x
      · rw [if_pos h]
        rw [List.pairwise_cons]
        refine ⟨?_, ih hys fun z hz => hx z (List.mem_cons_of_mem y hz)⟩
        intro z hz
        have hz2 := (insertAscBy_perm key x ys).mem_iff.mp hz
        rcases List.mem_cons.mp hz2 with rfl | hz3
        · exact Or.inl h
        · exact hy z hz3
      · rw [if_neg h]
        rw [List.pairwise_cons]
        constructor
        · intro z hz
          rcases List.mem_cons.mp hz with rfl | hz2
          · rcases lt_or_eq_of_le (not_lt.mp h) with hlt | heq
            · exact Or.inl hlt
            · exact Or.inr ⟨heq, hx z (List.mem_cons_self z ys)⟩
          · have hyz : key y ≤ key z := by
              rcases hy z hz2 with hlt | ⟨heq, _⟩
              · exact le_of_lt hlt
              · exact le_of_eq heq
            rcases lt_or_eq_of_le (le_trans (not_lt.mp h) hyz) with hlt | heq
            · exact Or.inl hlt
            · exact Or.inr ⟨heq, hx z (List.mem_cons_of_mem y hz2)⟩
        · exact List.pairwise_cons.mpr ⟨hy, hys⟩

/-- Stability of the insertion sort: if the input is pairwise `S`, the output is
sorted ascending by `key` with key-ties still pairwise `S`. -/
lemma sortAscBy_pairwise {α : Type} (key : α → ℚ) (S : α → α → Prop) (l : List α)
    (hl : l.Pairwise S) :
    (sortAscBy key l).Pairwise fun a b => key a < key b ∨ (key a = key b ∧ S a b) := by
  induction l with
  | nil => simp [sortAscBy]
  | cons x xs ih =>
      rw [List.pairwise_cons] at hl
      obtain ⟨hx, hxs⟩ := hl
      unfold sortAscBy
      exact insertAscBy_pairwise key S x (sortAscBy key xs) (ih hxs)
        fun y hy => hx y ((sortAscBy_perm key xs).mem_iff.mp hy)

/-- Any list is vacuously pairwise for the trivial relation. -/
lemma pairwise_trivial {α : Type} (l : List α) : l.Pairwise fun _ _ => True := by
  induction l with
  | nil => exact List.Pairwise.nil
  | cons x xs ih => exact List.pairwise_cons.mpr ⟨fun _ _ => trivial, ih⟩

/-- The insertion sort is sorted ascending by its key. -/
lemma sortAscBy_sorted {α : Type} (key : α → ℚ) (l : List α) :
    (sortAscBy key l).Pairwise fun a b => key a ≤ key b := by
  have h := sortAscBy_pairwise key (fun _ _ => True) l (pairwise_trivial l)
  exact h.imp fun hab => by
    rcases hab with hlt | ⟨heq, _⟩
    · exact le_of_lt hlt
    · exact le_of_eq heq

/-! ## Stance-sentiment mismatch (`consensus/summary_helpers.py`, lines 256-276) -/

/-- The columns `mismatch_weight_share` reads from a group row. -/
structure MRow where
  is_against : IsAgainst
  sentiment : Sentiment
  weight_score_algo : ℚ
deriving DecidableEq, Repr

/-- Python truthiness of the `is_against` cell.  The cell holds one of the
`IsAgainst` string-enum values YES / NO / MIXED; every one of them is a non-empty
string, hence truthy. -/
def stance_truthy (_ : IsAgainst) : Bool := true

/-- The source's `_is_mismatch(row)` predicate:
`(stance and sent == POSITIVE) or (not stance and sent == NEGATIVE)` where
`stance = row.get("is_against", False)` is used as a boolean. -/
def is_mismatch (row : MRow) : Bool :=
  (stance_truthy row.is_against && (row.sentiment == Sentiment.POSITIVE))
    || (!stance_truthy row.is_against && (row.sentiment == Sentiment.NEGATIVE))

/-- `mismatch_weight_share(g)`: 0 when the group's total weight is not positive,
else the mismatch-weight fraction. -/
def mismatch_weight_share (g : List MRow) : ℚ :=
  let total_w := (g.map MRow.weight_score_algo).sum
  if total_w ≤ 0 then 0
  else ((g.filter is_mismatch).map MRow.weight_score_algo).sum / total_w

/-- Claim C3's mismatch predicate: stance affirmative (YES) with positive
sentiment, or stance negative (NO) with negative sentiment; MIXED ignored. -/
def is_mismatch_per_claim (row : MRow) : Bool :=
  (row.is_against == IsAgainst.YES && row.sentiment == Sentiment.POSITIVE)
    || (row.is_against == IsAgainst.NO && row.sentiment == Sentiment.NEGATIVE)

/-- Claim C3's mismatch share: same aggregation with the claimed predicate. -/
def mismatch_weight_share_per_claim (g : List MRow) : ℚ :=
  let total_w := (g.map MRow.weight_score_algo).sum
  if total_w ≤ 0 then 0
  else ((g.filter is_mismatch_per_claim).map MRow.weight_score_algo).sum / total_w

/-- C3: the source tests Python truthiness of the stance string, and YES, NO and
MIXED are all truthy, so the code's mismatch share is simply the weighted share of
positive-sentiment items.  A NO-stance item with positive sentiment (no mismatch
per the claim) gets share 1 from the code while the claimed definition gives 0. -/
theorem mismatch_weight_share_stance_bug :
    mismatch_weight_share [⟨IsAgainst.NO, Sentiment.POSITIVE, 1⟩] = 1
    ∧ mismatch_weight_share_per_claim [⟨IsAgainst.NO, Sentiment.POSITIVE, 1⟩] = 0
    ∧ (∀ g : List MRow,
        mismatch_weight_share g =
          (let total_w := (g.map MRow.weight_score_algo).sum
           if total_w ≤ 0 then 0
           else ((g.filter fun r => r.sentiment == Sentiment.POSITIVE).map
                  MRow.weight_score_algo).sum / total_w)) := by
  refine ⟨?_, ?_, fun g => ?_⟩
  · have h : is_mismatch ⟨IsAgainst.NO, Sentiment.POSITIVE, 1⟩ = true := rfl
    norm_num [mismatch_weight_share, List.filter_cons, h]
  · have h : is_mismatch_per_claim ⟨IsAgainst.NO, Sentiment.POSITIVE, 1⟩ = false := rfl
    norm_num [mismatch_weight_share_per_claim, List.filter_cons, h]
  have hpred : is_mismatch = fun r : MRow => r.sentiment == Sentiment.POSITIVE := by
    funext r
    simp [is_mismatch, stance_truthy]
  unfold mismatch_weight_share
  rw [hpred]

/-! ## Payload assembly: against_top7 (`consensus/summary.py`, lines 674-715) -/

/-- The columns selected into `against_top7`:
`['weight_score_algo', 'text', 'is_against', 'sentiment']`. -/
structure PRow where
  weight_score_algo : ℚ
  text : String
  is_against : IsAgainst
  sentiment : Sentiment
deriving DecidableEq, Repr

/-- String representation of the `is_against` cell as seen by
`astype(str)`: the stance's enum value string. -/
def is_against_str : IsAgainst → String
  | .YES => "YES"
  | .NO => "NO"
  | .MIXED => "MIXED"

/-- Python `str.lower()`, character by character; exact for the ASCII enum value
strings this pipeline compares. -/
def lower_string (s : String) : String :=
  ⟨s.data.map Char.toLower⟩

/-- The payload filter mask `df["is_against"].astype(str).str.lower().eq("true")`. -/
def against_mask (r : PRow) : Bool :=
  lower_string (is_against_str r.is_against) == "true"

/-- `DataFrame.nlargest(n, "weight_score_algo", keep="all")`: the rows sorted by
weight descending (stable), truncated to `n` but keeping every row tied with the
n-th. -/
def nlargest_by_weight (n : ℕ) (rows : List PRow) : List PRow :=
  let sorted := (sortAscBy PRow.weight_score_algo rows).reverse
  if h : sorted.length ≤ n then sorted
  else sorted.filter fun r =>
    decide ((sorted.get ⟨n - 1, by omega⟩).weight_score_algo ≤ r.weight_score_algo)

/-- The `against_top7` selection of `build_llm_payload`: filter by the mask, then
top 7 by weight. -/
def against_top7 (rows : List PRow) : List PRow :=
  nlargest_by_weight 7 (rows.filter against_mask)

/-- C4: `against_top7` is empty for every input.  The mask compares the lowercased
stance string with "true", but the stance domain is YES / NO / MIXED, whose
lowercase forms are "yes" / "no" / "mixed"; the comparison never succeeds, so the
claim that affirmative-stance items appear in `against_top7` fails for every
input containing them. -/
theorem against_top7_always_empty :
    ∀ rows : List PRow, against_top7 rows = [] := by
  intro rows
  have hmask : ∀ r : PRow, against_mask r = false := by
    intro r
    cases hr : r.is_against <;> simp +decide [against_mask, is_against_str, hr, lower_string]
  have hfilter : rows.filter against_mask = [] := by
    apply List.filter_eq_nil_iff.mpr
    intro a _
    simp [hmask a]
  rw [against_top7, hfilter]
  rfl

/-! ## Summary response validation (`consensus/types.py`, lines 183-195) -/

/-- A raw structured response from the summarizer: each of the three keys of the
`Summary` schema may be present or absent. -/
structure SummaryResponse where
  main_summary : Option String
  conflicting_statement : Option String
  top_weighted_points : Option (List String)
deriving DecidableEq, Repr

/-- The validated `Summary` model (`consensus/types.py`, class Summary). -/
structure Summary where
  main_summary : String
  conflicting_statement : String
  top_weighted_points : List String
deriving DecidableEq, Repr

/-- Pydantic validation of the `Summary` model: `main_summary` and
`conflicting_statement` are required (`Field(...)`) and missing them is a
validation error; `top_weighted_points` has `default_factory=list`, so a missing
value silently becomes `[]`. -/
def validate_summary (r : SummaryResponse) : Except String Summary :=
  match r.main_summary, r.conflicting_statement with
  | some ms, some cs => Except.ok ⟨ms, cs, r.top_weighted_points.getD []⟩
  | _, _ => Except.error "validation error: missing required key"

/-- C6 counterexample: a response missing `top_weighted_points` validates
successfully (with the silent default `[]`) instead of raising. -/
theorem validate_summary_missing_points_ok :
    validate_summary ⟨some "s", some "c", none⟩ = Except.ok ⟨"s", "c", []⟩
    ∧ (validate_summary ⟨some "s", some "c", none⟩).isOk = true := by
  exact ⟨rfl, rfl⟩

/-- C6 (amended): validation requires exactly the two keys `main_summary` and
`conflicting_statement` — missing either is a hard error — while a missing
`top_weighted_points` is silently defaulted to the empty list. -/
theorem validate_summary_requires_two_keys (r : SummaryResponse) :
    ((validate_summary r).isOk = true ↔
        r.main_summary.isSome ∧ r.conflicting_statement.isSome)
    ∧ (r.main_summary = none ∨ r.conflicting_statement = none →
        validate_summary r = Except.error "validation error: missing required key")
    ∧ (∀ ms cs, r.main_summary = some ms → r.conflicting_statement = some cs →
        validate_summary r = Except.ok ⟨ms, cs, r.top_weighted_points.getD []⟩) := by
  obtain ⟨ms, cs, ps⟩ := r
  refine ⟨?_, ?_, ?_⟩
  · cases ms <;> cases cs <;> simp [validate_summary, Except.isOk, Except.toBool]
  · rintro (h | h)
    · simp only at h
      subst h
      cases cs <;> rfl
    · simp only at h
      subst h
      cases ms <;> rfl
  · intro ms0 cs0 hms hcs
    simp only at hms hcs
    subst hms
    subst hcs
    rfl

/-- Witness for C6 (amended) at a concrete response missing `main_summary`. -/
theorem validate_summary_requires_two_keys_witness :
    validate_summary ⟨none, some "c", some ["p"]⟩ =
      Except.error "validation error: missing required key" :=
  (validate_summary_requires_two_keys ⟨none, some "c", some ["p"]⟩).2.1 (Or.inl rfl)

/-! ## Weighted option counts (`consensus/summary_helpers.py`, lines 136-169 and 234-253)

A group is modelled as the two columns these functions read: the category option
value and `weight_score_algo` of each row. -/

/-- One update of the Python accumulation loop: add the row weight to the matching
option entry, leave rows whose option is not an allowed key untouched
(`if opt in weights`). -/
def addWeight (acc : List (String × ℚ)) (ow : String × ℚ) : List (String × ℚ) :=
  acc.map fun p => if p.1 = ow.1 then (p.1, p.2 + ow.2) else p

/-- The `weights` dict of `consensus_score_for_group` / `consensus_for_group`:
`{opt: 0.0 for opt in allowed_options}` then the accumulation loop.  The Python
dict keys are unique; the allowed-option lists of this code base are enum value
lists and hence duplicate-free, which is the regime in which this list model
coincides with the dict. -/
def optionWeights (allowed : List String) (rows : List (String × ℚ)) : List (String × ℚ) :=
  rows.foldl addWeight (allowed.map fun o => (o, 0))

/-- Total weight contributed by rows carrying option value `o`. -/
def sumWeightsFor (rows : List (String × ℚ)) (o : String) : ℚ :=
  ((rows.filter fun r => decide (r.1 = o)).map Prod.snd).sum

/-- One step of Python `max(..., key=lambda kv: kv[1])`: keep the current best
unless the next item is strictly larger (so the first maximum wins ties). -/
def maxStep (best q : String × ℚ) : String × ℚ :=
  if best.2 < q.2 then q else best

/-- Python `max(items, key=value)` over a non-empty association list; `none` on the
empty list (where Python would raise, a case the callers never reach because an
empty dict has total weight 0). -/
def firstArgmax : List (String × ℚ) → Option (String × ℚ)
  | [] => none
  | p :: ps => some (ps.foldl maxStep p)

/-- Result record of `consensus_score_for_group`. -/
structure ConsensusInfo where
  option_weights : List (String × ℚ)
  option_shares : List (String × ℚ)
  dominant_option : Option String
  consensus : ℤ
deriving DecidableEq, Repr

/-- `consensus_score_for_group(g, option_col, allowed_options)`
(`consensus/summary_helpers.py`, lines 136-169): weighted option counts, shares,
dominant option and the consensus score
`100 if m == 1 else int(round(100 * (p - 1/m) / (1 - 1/m)))` clamped to [0, 100],
with the zero-total early return. -/
def consensus_score_for_group (g : List (String × ℚ)) (allowed : List String) :
    ConsensusInfo :=
  let weights := optionWeights allowed g
  let total_w := (weights.map Prod.snd).sum
  if total_w ≤ 0 then
    { option_weights := weights
      option_shares := allowed.map fun k => (k, 0)
      dominant_option := none
      consensus := 0 }
  else
    let shares := weights.map fun p => (p.1, p.2 / total_w)
    match firstArgmax shares with
    | none =>
        { option_weights := weights
          option_shares := shares
          dominant_option := none
          consensus := 0 }
    | some dp =>
        let m : ℕ := max 1 allowed.length
        let consensus : ℤ :=
          if m = 1 then 100
          else pythonRound (100 * (dp.2 - 1 / (m : ℚ)) / (1 - 1 / (m : ℚ)))
        { option_weights := weights
          option_shares := shares
          dominant_option := some dp.1
          consensus := max 0 (min 100 consensus) }

/-- `consensus_for_group(g, option_col, allowed_options)`
(`consensus/summary_helpers.py`, lines 234-253), used by the dissent detector:
returns `(consensus, dominant_option, shares)`; with zero total weight the shares
are all 0, the dominant option is `None` and `p = 0.0`. -/
def consensus_for_group (g : List (String × ℚ)) (allowed : List String) :
    ℤ × Option String × List (String × ℚ) :=
  let weights := optionWeights allowed g
  let total_w := (weights.map Prod.snd).sum
  let shares :=
    if 0 < total_w then weights.map fun p => (p.1, p.2 / total_w)
    else weights.map fun p => (p.1, 0)
  let dp : Option String × ℚ :=
    if 0 < total_w then
      match firstArgmax shares with
      | some q => (some q.1, q.2)
      | none => (none, 0)
    else (none, 0)
  let m : ℕ := max 1 allowed.length
  let consensus : ℤ :=
    if m = 1 then 100
    else pythonRound (100 * (dp.2 - 1 / (m : ℚ)) / (1 - 1 / (m : ℚ)))
  (max 0 (min 100 consensus), dp.1, shares)

/-! ## Dissent detection (`consensus/summary_helpers.py`, lines 279-286 and
`consensus/summary.py`, lines 376-451) -/

/-- `bimodal_flag(option_shares)`: True iff the two largest share values are each
at least 0.30 (`sorted(values, reverse=True)`, then `shares[0] >= 0.30 and
shares[1] >= 0.30`; fewer than two values give False, as does the empty dict). -/
def bimodal_flag (option_shares : List (String × ℚ)) : Bool :=
  match (sortAscBy id (option_shares.map Prod.snd)).reverse with
  | s0 :: s1 :: _ => decide ((3 : ℚ) / 10 ≤ s0) && decide ((3 : ℚ) / 10 ≤ s1)
  | _ => false

/-- The columns `detect_dissent` reads per row: the category option value,
`is_against`, `sentiment`, and the weight. -/
structure DRow where
  option_value : String
  is_against : IsAgainst
  sentiment : Sentiment
  weight_score_algo : ℚ
deriving DecidableEq, Repr

/-- One output row of `detect_dissent` (reason strings omitted). -/
structure DissentRecord where
  consensus : ℤ
  dominant_option : Option String
  option_shares : List (String × ℚ)
  mismatch_share : ℚ
  low_consensus_flag : Bool
  mismatch_flag : Bool
  bimodal_flag : Bool
  dissent : Bool
deriving DecidableEq, Repr

/-- The per-theme body of `detect_dissent` (`consensus/summary.py`, lines 407-447):
consensus via `consensus_for_group`, mismatch share, the three flags, and
`dissent = bool(low_consensus or mismatch_flag or bi_flag)`.  The stored
`mismatch_share` is rounded to 4 digits; the flag uses the unrounded value. -/
def detect_dissent_row (g : List DRow) (allowed : List String)
    (consensus_threshold : ℤ) (mismatch_threshold : ℚ) : DissentRecord :=
  let cr := consensus_for_group (g.map fun d => (d.option_value, d.weight_score_algo)) allowed
  let mm := mismatch_weight_share
    (g.map fun d => ⟨d.is_against, d.sentiment, d.weight_score_algo⟩)
  let low := decide (cr.1 < consensus_threshold)
  let mmf := decide (mismatch_threshold ≤ mm)
  let bi := bimodal_flag cr.2.2
  { consensus := cr.1
    dominant_option := cr.2.1
    option_shares := cr.2.2
    mismatch_share := pythonRoundTo 4 mm
    low_consensus_flag := low
    mismatch_flag := mmf
    bimodal_flag := bi
    dissent := low || mmf || bi }

/-- C7: `bimodal_flag` holds exactly when at least two option-share entries are at
least 0.30 (equivalently: the two largest shares are each at least 0.30), and the
combined dissent boolean of `detect_dissent` is the disjunction of the
low-consensus, mismatch and bimodal flags. -/
theorem bimodal_and_dissent_spec :
    (∀ option_shares : List (String × ℚ),
        bimodal_flag option_shares = true ↔
          2 ≤ option_shares.countP fun p => decide ((3 : ℚ) / 10 ≤ p.2))
    ∧ (∀ g : List DRow, ∀ allowed : List String, ∀ ct : ℤ, ∀ mt : ℚ,
        (detect_dissent_row g allowed ct mt).dissent =
          ((detect_dissent_row g allowed ct mt).low_consensus_flag
            || (detect_dissent_row g allowed ct mt).mismatch_flag
            || (detect_dissent_row g allowed ct mt).bimodal_flag)) := by
  constructor
  · intro option_shares
    unfold bimodal_flag
    have hcount :
        (option_shares.countP fun p => decide ((3 : ℚ) / 10 ≤ p.2)) =
          ((sortAscBy id (option_shares.map Prod.snd)).reverse.countP
            fun v => decide ((3 : ℚ) / 10 ≤ v)) := by
      have h1 := (sortAscBy_perm id (option_shares.map Prod.snd)).countP_eq
        fun v => decide ((3 : ℚ) / 10 ≤ v)
      have h2 := (List.reverse_perm (sortAscBy id (option_shares.map Prod.snd))).countP_eq
        fun v => decide ((3 : ℚ) / 10 ≤ v)
      rw [h2, h1, List.countP_map]
      rfl
    rw [hcount]
    have hsorted : (sortAscBy id (option_shares.map Prod.snd)).reverse.Pairwise
        fun a b => b ≤ a := by
      rw [List.pairwise_reverse]
      exact sortAscBy_sorted id (option_shares.map Prod.snd)
    rcases hrev : (sortAscBy id (option_shares.map Prod.snd)).reverse with
      _ | ⟨s0, _ | ⟨s1, rest⟩⟩
    · simp
    · simp [List.countP_cons]
      split <;> omega
    · rw [hrev] at hsorted
      rw [List.pairwise_cons] at hsorted
      obtain ⟨h0, hsorted1⟩ := hsorted
      rw [List.pairwise_cons] at hsorted1
      obtain ⟨h1, _⟩ := hsorted1
      by_cases hb : (3 : ℚ) / 10 ≤ s1
      · have ha : (3 : ℚ) / 10 ≤ s0 :=
          le_trans hb (h0 s1 (List.mem_cons_self s1 rest))
        simp [List.countP_cons, ha, hb]
      · have hrest : rest.countP (fun v => decide ((3 : ℚ) / 10 ≤ v)) = 0 := by
          apply List.countP_eq_zero.mpr
          intro v hv
          simp only [decide_eq_true_eq]
          intro hle
          exact hb (le_trans hle (h1 v hv))
        simp [List.countP_cons, hb, hrest]
        split <;> omega
  · intro g allowed ct mt
    rfl

/-! ## Theme ordering before clustering (`consensus/summary.py`, lines 198-227) -/

/-- Insert a theme string into a strictly ascending list of distinct strings,
keeping it sorted and duplicate-free: the distinct group keys of pandas
`groupby("theme")`, which are emitted in ascending order. -/
def insertThemeAsc (s : String) : List String → List String
  | [] => [s]
  | t :: ts =>
      if s = t then t :: ts
      else if s < t then s :: t :: ts
      else t :: insertThemeAsc s ts

/-- The distinct theme strings of the rows, in ascending order. -/
def distinct_themes_sorted (rows : List (String × ℚ)) : List String :=
  (rows.map Prod.fst).foldr insertThemeAsc []

/-- Total weight of the rows with exactly this theme string. -/
def sumThemeWeight (rows : List (String × ℚ)) (t : String) : ℚ :=
  ((rows.filter fun r => decide (r.1 = t)).map Prod.snd).sum

/-- `df.groupby("theme", as_index=False)["weight_score_algo"].sum()`: one row per
distinct theme, themes in ascending order (pandas groupby default `sort=True`). -/
def groupby_theme_weights (rows : List (String × ℚ)) : List (String × ℚ) :=
  (distinct_themes_sorted rows).map fun t => (t, sumThemeWeight rows t)

/-- `.sort_values("weight_score_algo", ascending=False)`: pandas computes the
ascending argsort and reverses it (`nargsort`); the underlying numpy sort is an
insertion sort — hence stable — on the small arrays produced here (it is exact
for fewer than 16 distinct themes). -/
def sort_values_desc (tw : List (String × ℚ)) : List (String × ℚ) :=
  (sortAscBy Prod.snd tw).reverse

/-- `unique_themes` of `step_c_cluster_themes_simple`: the distinct themes in the
greedy clustering iteration order. -/
def unique_themes (rows : List (String × ℚ)) : List String :=
  (sort_values_desc (groupby_theme_weights rows)).map Prod.fst

lemma insertThemeAsc_mem (s : String) (l : List String) (z : String)
    (hz : z ∈ insertThemeAsc s l) : z = s ∨ z ∈ l := by
  induction l with
  | nil =>
      simp [insertThemeAsc] at hz
      exact Or.inl hz
  | cons t ts ih =>
      unfold insertThemeAsc at hz
      by_cases h1 : s = t
      · rw [if_pos h1] at hz
        exact Or.inr hz
      · rw [if_neg h1] at hz
        by_cases h2 : s < t
        · rw [if_pos h2] at hz
          rcases List.mem_cons.mp hz with rfl | hz2
          · exact Or.inl rfl
          · exact Or.inr hz2
        · rw [if_neg h2] at hz
          rcases List.mem_cons.mp hz with rfl | hz2
          · exact Or.inr (List.mem_cons_self z ts)
          · rcases ih hz2 with h | h
            · exact Or.inl h
            · exact Or.inr (List.mem_cons_of_mem t h)

lemma insertThemeAsc_pairwise (s : String) (l : List String)
    (hl : l.Pairwise (· < ·)) : (insertThemeAsc s l).Pairwise (· < ·) := by
  induction l with
  | nil => simp [insertThemeAsc]
  | cons t ts ih =>
      rw [List.pairwise_cons] at hl
      obtain ⟨ht, hts⟩ := hl
      unfold insertThemeAsc
      by_cases h1 : s = t
      · rw [if_pos h1]
        exact List.pairwise_cons.mpr ⟨ht, hts⟩
      · rw [if_neg h1]
        by_cases h2 : s < t
        · rw [if_pos h2]
          refine List.pairwise_cons.mpr ⟨?_, List.pairwise_cons.mpr ⟨ht, hts⟩⟩
          intro z hz
          rcases List.mem_cons.mp hz with rfl | hz2
          · exact h2
          · exact lt_trans h2 (ht z hz2)
        · rw [if_neg h2]
          have hts2 : t < s := by
            rcases lt_trichotomy s t with h | h | h
            · exact absurd h h2
            · exact absurd h h1
            · exact h
          refine List.pairwise_cons.mpr ⟨?_, ih hts⟩
          intro z hz
          rcases insertThemeAsc_mem s ts z hz with rfl | hz2
          · exact hts2
          · exact ht z hz2

lemma distinct_themes_sorted_pairwise (rows : List (String × ℚ)) :
    (distinct_themes_sorted rows).Pairwise (· < ·) := by
  unfold distinct_themes_sorted
  induction rows.map Prod.fst with
  | nil => simp
  | cons t ts ih => exact insertThemeAsc_pairwise t (ts.foldr insertThemeAsc []) ih

/-- C8 (amended): before the greedy clustering pass the distinct themes are
ordered by total weight descending, deterministically, but exact weight ties are
broken by theme string value descending (pandas reverses a stable ascending
sort over the theme-ascending groupby output), not ascending. -/
theorem theme_order_desc_tiebreak (rows : List (String × ℚ)) :
    List.Perm (sort_values_desc (groupby_theme_weights rows)) (groupby_theme_weights rows)
    ∧ (sort_values_desc (groupby_theme_weights rows)).Pairwise
        fun a b => b.2 < a.2 ∨ (a.2 = b.2 ∧ b.1 < a.1) := by
  constructor
  · exact (List.reverse_perm _).trans (sortAscBy_perm Prod.snd _)
  · unfold sort_values_desc
    rw [List.pairwise_reverse]
    have hg : (groupby_theme_weights rows).Pairwise fun a b => a.1 < b.1 := by
      unfold groupby_theme_weights
      rw [List.pairwise_map]
      exact distinct_themes_sorted_pairwise rows
    have h := sortAscBy_pairwise Prod.snd (fun a b => a.1 < b.1) _ hg
    exact h.imp fun hab => by
      rcases hab with hlt | ⟨heq, hs⟩
      · exact Or.inl hlt
      · exact Or.inr ⟨heq.symm, hs⟩

/-- C8 counterexample: two distinct themes with exactly equal total weight come
out in descending string order, not ascending. -/
theorem theme_order_tie_counterexample :
    unique_themes [("a", 1), ("b", 1)] = ["b", "a"]
    ∧ unique_themes [("a", 1), ("b", 1)] ≠ ["a", "b"] := by
  have hab : ("a" : String) < "b" := by
    rw [String.lt_iff_toList_lt]
    decide
  have hne : ¬ (("a" : String) = "b") := by decide
  have hne2 : ¬ (("b" : String) = "a") := by decide
  have h1 : unique_themes [("a", 1), ("b", 1)] = ["b", "a"] := by
    norm_num [unique_themes, sort_values_desc, groupby_theme_weights,
      distinct_themes_sorted, insertThemeAsc, sortAscBy, insertAscBy, sumThemeWeight,
      List.filter_cons, hab, hne, hne2]
  refine ⟨h1, ?_⟩
  rw [h1]
  decide

/-! ## Correctness of the consensus scorer (C1) -/

lemma foldl_addWeight (rows : List (String × ℚ)) (allowed : List String) (f : String → ℚ) :
    rows.foldl addWeight (allowed.map fun o => (o, f o)) =
      allowed.map fun o => (o, f o + sumWeightsFor rows o) := by
  induction rows generalizing f with
  | nil =>
      simp only [List.foldl_nil]
      apply List.map_congr_left
      intro o _
      simp [sumWeightsFor]
  | cons r rs ih =>
      rw [List.foldl_cons]
      have hstep : addWeight (allowed.map fun o => (o, f o)) r =
          allowed.map fun o => (o, f o + if o = r.1 then r.2 else 0) := by
        unfold addWeight
        rw [List.map_map]
        apply List.map_congr_left
        intro o _
        by_cases h : o = r.1 <;> simp [h]
      rw [hstep, ih fun o => f o + if o = r.1 then r.2 else 0]
      apply List.map_congr_left
      intro o _
      have hsum : sumWeightsFor (r :: rs) o =
          (if o = r.1 then r.2 else 0) + sumWeightsFor rs o := by
        unfold sumWeightsFor
        rw [List.filter_cons]
        by_cases h : o = r.1
        · simp [h]
        · have h2 : ¬ (r.1 = o) := fun hh => h hh.symm
          simp [h, h2]
      rw [hsum]
      simp [add_assoc]

/-- The `weights` dict equals the per-option filter-sums, in allowed-option order. -/
lemma optionWeights_eq (allowed : List String) (rows : List (String × ℚ)) :
    optionWeights allowed rows = allowed.map fun o => (o, sumWeightsFor rows o) := by
  have h := foldl_addWeight rows allowed fun _ => 0
  simp only [zero_add] at h
  exact h

lemma foldl_maxStep_spec (ps : List (String × ℚ)) (p : String × ℚ) :
    (ps.foldl maxStep p = p ∧ ∀ q ∈ ps, q.2 ≤ p.2)
    ∨ ∃ i : Fin ps.length,
        ps.foldl maxStep p = ps.get i
        ∧ p.2 < (ps.get i).2
        ∧ (∀ j : Fin ps.length, j.val < i.val → (ps.get j).2 < (ps.get i).2)
        ∧ (∀ q ∈ ps, q.2 ≤ (ps.get i).2) := by
  induction ps generalizing p with
  | nil => exact Or.inl ⟨rfl, by simp⟩
  | cons q qs ih =>
      rw [List.foldl_cons]
      by_cases h : p.2 < q.2
      · have hstep : maxStep p q = q := by
          unfold maxStep
          rw [if_pos h]
        rw [hstep]
        rcases ih q with ⟨heq, hall⟩ | ⟨i, heq, hlt, hfirst, hall⟩
        · refine Or.inr ⟨⟨0, by simp⟩, ?_, ?_, ?_, ?_⟩
          · simpa using heq
          · simpa using h
          · intro j hj
            exact absurd hj (Nat.not_lt_zero _)
          · intro z hz
            rcases List.mem_cons.mp hz with rfl | hz2
            · simp
            · simpa using hall z hz2
        · refine Or.inr ⟨⟨i.val + 1, by simp⟩, ?_, ?_, ?_, ?_⟩
          · simpa using heq
          · simpa using lt_trans h hlt
          · intro j hj
            rcases j with ⟨jv, hjv⟩
            cases jv with
            | zero => simpa using hlt
            | succ jv2 =>
                have hjv2 : jv2 < qs.length := by simpa using hjv
                have hj2 : jv2 < i.val := by simpa using hj
                simpa using hfirst ⟨jv2, hjv2⟩ hj2
          · intro z hz
            rcases List.mem_cons.mp hz with rfl | hz2
            · simpa using le_of_lt hlt
            · simpa using hall z hz2
      · have hstep : maxStep p q = p := by
          unfold maxStep
          rw [if_neg h]
        rw [hstep]
        rcases ih p with ⟨heq, hall⟩ | ⟨i, heq, hlt, hfirst, hall⟩
        · refine Or.inl ⟨heq, ?_⟩
          intro z hz
          rcases List.mem_cons.mp hz with rfl | hz2
          · exact not_lt.mp h
          · exact hall z hz2
        · refine Or.inr ⟨⟨i.val + 1, by simp⟩, ?_, ?_, ?_, ?_⟩
          · simpa using heq
          · simpa using hlt
          · intro j hj
            rcases j with ⟨jv, hjv⟩
            cases jv with
            | zero => simpa using lt_of_le_of_lt (not_lt.mp h) hlt
            | succ jv2 =>
                have hjv2 : jv2 < qs.length := by simpa using hjv
                have hj2 : jv2 < i.val := by simpa using hj
                simpa using hfirst ⟨jv2, hjv2⟩ hj2
          · intro z hz
            rcases List.mem_cons.mp hz with rfl | hz2
            · simpa using le_trans (not_lt.mp h) (le_of_lt hlt)
            · simpa using hall z hz2

/-- `firstArgmax` of a non-empty list is the first entry attaining the maximal
value: everything is bounded by it and every strictly earlier entry is strictly
smaller. -/
lemma firstArgmax_spec (l : List (String × ℚ)) (hne : l ≠ []) :
    ∃ i : Fin l.length,
      firstArgmax l = some (l.get i)
      ∧ (∀ q ∈ l, q.2 ≤ (l.get i).2)
      ∧ ∀ j : Fin l.length, j.val < i.val → (l.get j).2 < (l.get i).2 := by
  match l, hne with
  | p :: ps, _ =>
    rcases foldl_maxStep_spec ps p with ⟨heq, hall⟩ | ⟨i, heq, hlt, hfirst, hall⟩
    · refine ⟨⟨0, by simp⟩, ?_, ?_, ?_⟩
      · simpa [firstArgmax] using heq
      · intro z hz
        rcases List.mem_cons.mp hz with rfl | hz2
        · simp
        · simpa using hall z hz2
      · intro j hj
        exact absurd hj (Nat.not_lt_zero _)
    · refine ⟨⟨i.val + 1, by simp⟩, ?_, ?_, ?_⟩
      · simpa [firstArgmax] using heq
      · intro z hz
        rcases List.mem_cons.mp hz with rfl | hz2
        · simpa using le_of_lt hlt
        · simpa using hall z hz2
      · intro j hj
        rcases j with ⟨jv, hjv⟩
        cases jv with
        | zero => simpa using hlt
        | succ jv2 =>
            have hjv2 : jv2 < ps.length := by simpa using hjv
            have hj2 : jv2 < i.val := by simpa using hj
            simpa using hfirst ⟨jv2, hjv2⟩ hj2

lemma get_map_pair {α β : Type} (f : α → β) (l : List α) (i : Fin (l.map f).length) :
    (l.map f).get i = f (l.get ⟨i.val, by simpa using i.isLt⟩) := by
  simp

/-- Total group weight: the sum over allowed options of the per-option sums. -/
def totalWeight (rows : List (String × ℚ)) (allowed : List String) : ℚ :=
  (allowed.map (sumWeightsFor rows)).sum

/-- The property claim C1 states of `consensus_score_for_group`: option weights
are per-option sums; with positive total weight the shares are the normalized
weights, the dominant option is the first-occurring argmax of the shares, and the
consensus is 100 for a single option and otherwise the clamped rounded normalized
margin; with zero total weight the dominant option is null and the consensus 0. -/
def ConsensusScoreSpec (rows : List (String × ℚ)) (allowed : List String) : Prop :=
  let info := consensus_score_for_group rows allowed
  let T := totalWeight rows allowed
  info.option_weights = (allowed.map fun o => (o, sumWeightsFor rows o))
  ∧ (T = 0 → info.dominant_option = none ∧ info.consensus = 0)
  ∧ (0 < T →
      info.option_shares = (allowed.map fun o => (o, sumWeightsFor rows o / T))
      ∧ ∃ d : Fin allowed.length,
          info.dominant_option = some (allowed.get d)
          ∧ (∀ i : Fin allowed.length,
              sumWeightsFor rows (allowed.get i) / T ≤ sumWeightsFor rows (allowed.get d) / T)
          ∧ (∀ i : Fin allowed.length, i.val < d.val →
              sumWeightsFor rows (allowed.get i) / T < sumWeightsFor rows (allowed.get d) / T)
          ∧ info.consensus =
              (if allowed.length = 1 then 100
               else
                 max 0 (min 100 (pythonRound
                   (100 * (sumWeightsFor rows (allowed.get d) / T - 1 / (allowed.length : ℚ))
                     / (1 - 1 / (allowed.length : ℚ)))))))

/-- C1: `consensus_score_for_group` meets the claimed specification.  The
`Nodup` hypothesis matches the Python dict keyed by the allowed options; every
allowed-option list in this code base is a duplicate-free enum value list. -/
theorem consensus_score_for_group_spec (rows : List (String × ℚ)) (allowed : List String)
    (hnd : allowed.Nodup) : ConsensusScoreSpec rows allowed := by
  have hw := optionWeights_eq allowed rows
  have htot : ((allowed.map fun o => (o, sumWeightsFor rows o)).map Prod.snd).sum =
      totalWeight rows allowed := by
    rw [List.map_map]
    rfl
  have hshares : (allowed.map fun o => (o, sumWeightsFor rows o)).map
        (fun p => (p.1, p.2 / totalWeight rows allowed)) =
      allowed.map fun o => (o, sumWeightsFor rows o / totalWeight rows allowed) := by
    rw [List.map_map]
    rfl
  by_cases hc : totalWeight rows allowed ≤ 0
  · simp only [ConsensusScoreSpec, consensus_score_for_group, hw, htot, if_pos hc]
    exact ⟨trivial, fun _ => ⟨trivial, trivial⟩, fun hpos => absurd hpos (not_lt.mpr hc)⟩
  · have hpos : 0 < totalWeight rows allowed := not_le.mp hc
    have hane : allowed ≠ [] := by
      rintro rfl
      rw [show totalWeight rows [] = 0 from rfl] at hpos
      exact absurd hpos (lt_irrefl 0)
    have hsne : (allowed.map fun o => (o, sumWeightsFor rows o / totalWeight rows allowed)) ≠
        [] := by
      simpa using hane
    obtain ⟨i, heq, hall, hfirst⟩ := firstArgmax_spec _ hsne
    have hi : i.val < allowed.length := by simpa using i.isLt
    have hget : (allowed.map fun o =>
          (o, sumWeightsFor rows o / totalWeight rows allowed)).get i =
        (allowed.get ⟨i.val, hi⟩,
          sumWeightsFor rows (allowed.get ⟨i.val, hi⟩) / totalWeight rows allowed) :=
      get_map_pair _ allowed i
    have hm : max 1 allowed.length = allowed.length :=
      Nat.max_eq_right (Nat.one_le_iff_ne_zero.mpr fun h0 => hane (List.length_eq_zero.mp h0))
    simp only [ConsensusScoreSpec, consensus_score_for_group, hw, htot, hshares, if_neg hc,
      heq, hget, hm]
    refine ⟨trivial, fun h0 => absurd h0 hpos.ne.symm, fun _ => ?_⟩
    refine ⟨trivial, ⟨⟨i.val, hi⟩, rfl, ?_, ?_, ?_⟩⟩
    · intro i2
      have hmem : (allowed.get ⟨i2.val, i2.isLt⟩,
          sumWeightsFor rows (allowed.get ⟨i2.val, i2.isLt⟩) / totalWeight rows allowed) ∈
          allowed.map fun o => (o, sumWeightsFor rows o / totalWeight rows allowed) := by
        apply List.mem_map_of_mem
        exact List.get_mem allowed i2.val i2.isLt
      have h2 := hall _ hmem
      rw [hget] at h2
      have hi2 : allowed.get i2 = allowed.get ⟨i2.val, i2.isLt⟩ := by
        cases i2
        rfl
      rw [hi2]
      exact h2
    · intro i2 hlt2
      have hi2m : i2.val < (allowed.map fun o =>
          (o, sumWeightsFor rows o / totalWeight rows allowed)).length := by
        simp only [List.length_map]
        exact i2.isLt
      have h2 := hfirst ⟨i2.val, hi2m⟩ hlt2
      rw [hget, get_map_pair] at h2
      have hi2 : allowed.get i2 = allowed.get ⟨i2.val, i2.isLt⟩ := by
        cases i2
        rfl
      rw [hi2]
      exact h2
    · by_cases h1 : allowed.length = 1
      · rw [if_pos h1, if_pos h1]
        norm_num [min_def, max_def]
      · rw [if_neg h1, if_neg h1]

/-- Witness for C1 on a concrete FEEDBACK_RETROSPECTIVE group. -/
theorem consensus_score_for_group_spec_witness :
    ((CATEGORY_FIELD_OPTIONS Category.FEEDBACK_RETROSPECTIVE).2).Nodup
    ∧ ConsensusScoreSpec [("HELPED", 3 / 2), ("HURT", 1)]
        (CATEGORY_FIELD_OPTIONS Category.FEEDBACK_RETROSPECTIVE).2 :=
  ⟨by decide,
   consensus_score_for_group_spec [("HELPED", 3 / 2), ("HURT", 1)]
     (CATEGORY_FIELD_OPTIONS Category.FEEDBACK_RETROSPECTIVE).2 (by decide)⟩

end FeedbackSystem
